import Mathlib

/-
Verification of `ugali/utils/batch.py` (cross-platform batch computing
interface).  The Python module manipulates `collections.OrderedDict`
option sets; we embed those as association lists `List (String × String)`
with Python-dict semantics: `setVal` models `d[k] = v` (replace in place
at the first occurrence of the key, else append at the end), `odictUpdate`
models `d.update(other)` (apply `setVal` for each pair of `other` in
order), `setdefault` models `d.setdefault(k, v)`, and `popKey` models
`d.pop(k, None)`.  Option values are immutable Python strings; the integer
default `C = 0` is embedded as its `str()` rendering "0", which is how it
is serialized.
-/

namespace UgaliBatch

abbrev Assoc := List (String × String)

/-- Keys of an option mapping, in insertion order (Python `dict.keys()`). -/
def keysOf (m : Assoc) : List String := m.map Prod.fst

/-- Python `d.get(k)` / `d[k]` read: value at the first occurrence of `k`. -/
def lookupA : Assoc → String → Option String
  | [], _ => none
  | (k', v) :: t, k => if k' = k then some v else lookupA t k

/-- Python `d[k] = v`: replace the value at the first occurrence of `k`
keeping its position, else append `(k, v)` at the end. -/
def setVal : Assoc → String → String → Assoc
  | [], k, v => [(k, v)]
  | (k', v') :: t, k, v => if k' = k then (k, v) :: t else (k', v') :: setVal t k v

/-- Python `d.update(u)`: set each pair of `u` in order. -/
def odictUpdate (m u : Assoc) : Assoc :=
  u.foldl (fun acc p => setVal acc p.1 p.2) m

/-- Python `d.setdefault(k, v)`: insert `(k, v)` at the end only when `k`
is absent. -/
def setdefault (m : Assoc) (k v : String) : Assoc :=
  match lookupA m k with
  | some _ => m
  | none => m ++ [(k, v)]

/-- Python `d.pop(k, None)`: remove the entry for `k` (if any) and return
its value together with the remaining mapping. -/
def popKey : Assoc → String → Option String × Assoc
  | [], _ => (none, [])
  | (k', v) :: t, k =>
    if k' = k then (some v, t)
    else
      let r := popKey t k
      (r.1, (k', v) :: r.2)

/-- A mapping coming from a Python dict has no duplicate keys. -/
def NodupKeys (m : Assoc) : Prop := (keysOf m).Nodup

instance (m : Assoc) : Decidable (NodupKeys m) := by
  unfold NodupKeys; infer_instance

/-- Keys of `u` that are new with respect to `m`, in the order of `u`. -/
def newKeys (m u : Assoc) : List String :=
  (keysOf u).filter (fun k => decide (¬ k ∈ keysOf m))

/-
String helpers embedding the Python primitives `str.lower`, `str.strip`
and `str.split` character-wise (total, kernel-computable).  Python
`str.strip()` removes leading and trailing whitespace; `str.split(sep)`
with an explicit separator keeps empty pieces, and `"".split(sep)` is
`[""]` (matched by `List.splitOn` on the empty list).
-/

/-- Python `s.lower()` (character-wise; the source only lowercases ASCII
queue names). -/
def pyLower (s : String) : String := String.mk (s.toList.map Char.toLower)

/-- Python `s.strip()`: drop leading and trailing whitespace. -/
def pyStrip (s : String) : String :=
  let l := s.toList.dropWhile Char.isWhitespace
  String.mk (l.reverse.dropWhile Char.isWhitespace).reverse

/-- Python `s.split(chr)` with an explicit one-character separator. -/
def pySplitOn (s : String) (c : Char) : List String :=
  (s.toList.splitOn c).map String.mk

/-
Embedding of the module-level tables of `batch.py` (CLUSTERS, QUEUES,
RUNLIMITS, MPIOPTS), one Lean constant per entry of the two odicts of
lists, and lists of (key, value) pairs for the two queue-keyed tables
whose keys include the Python `None` sentinel (embedded as `none`).
-/

def CLUSTERS_local : List String := ["local"]

def CLUSTERS_lsf : List String := ["lsf", "slac", "kipac"]

def CLUSTERS_slurm : List String := ["slurm", "midway", "kicp"]

def CLUSTERS_condor : List String := ["condor", "fnal"]

def QUEUES_local : List String := []

def QUEUES_lsf : List String :=
  ["express", "short", "medium", "long", "xlong", "xxl", "kipac-ibq", "bulletmpi"]

def QUEUES_slurm : List String := []

def QUEUES_condor : List String := ["local", "vanilla", "universe", "grid"]

/-- `list(chain(*list(QUEUES.values())))`: the flattened union of the
queue-name lists, in table order. -/
def allQueueNames : List String :=
  QUEUES_local ++ QUEUES_lsf ++ QUEUES_slurm ++ QUEUES_condor

/-- RUNLIMITS table: queue name (or the `None` sentinel) to hard wallclock
limit. -/
def RUNLIMITS : List (Option String × String) :=
  [(none, "4:00"), (some "express", "0:04"), (some "short", "0:30"),
   (some "medium", "1:00"), (some "long", "4:00"), (some "xlong", "72:00"),
   (some "xxl", "168:00"), (some "kipac-ibq", "36:00"),
   (some "bulletmpi", "36:00")]

/-- MPIOPTS table: queue name (or the `None` sentinel) to MPI placement
string. -/
def MPIOPTS : List (Option String × String) :=
  [(none, " -R \"span[ptile=4]\""), (some "local", ""), (some "short", ""),
   (some "medium", ""), (some "kipac-ibq", " -R \"span[ptile=8]\""),
   (some "bulletmpi", " -R \"span[ptile=16]\"")]

/-- Dictionary read `tbl[q]` for the queue-keyed tables (first match, the
key type includes the `None` sentinel). -/
def lookupTab : List (Option String × String) → Option String → Option String
  | [], _ => none
  | (k, v) :: t, q => if k = q then some v else lookupTab t q

/-
Mutable global state threaded explicitly.  `batch.py` keeps its option
tables in module-level globals and its per-class defaults in class
attributes; `GlobalEnv` packages everything a backend operation could read
or write, so that each operation of interest can be stated as a function
returning both its result and the environment it leaves behind.  Option
values are immutable Python strings, and `odict(self.default_opts)` /
`copy.deepcopy(self._defaults)` copy the dict spine, which is why the
per-call updates below operate on fresh association lists.
-/

structure GlobalEnv where
  clustersTab : List (String × List String)
  queuesTab : List (String × List String)
  runlimitsTab : List (Option String × String)
  mpiTab : List (Option String × String)
  lsfClassDefaults : Assoc
  slurmClassDefaults : Assoc
  lsfMapping : Assoc

/-- Class-level defaults of `LSF` (`LSF._defaults`); the int `0` is
embedded as its serialized form "0". -/
def LSF_defaults : Assoc := [("R", "\"scratch > 1 && rhel60\""), ("C", "0")]

/-- Key remapping of `LSF` (`LSF._mapping`). -/
def LSF_mapping : Assoc := [("jobname", "J"), ("logfile", "oo")]

/-- Class-level defaults of `Slurm` (`Slurm._defaults`); the int `10000`
is embedded as its serialized form. -/
def Slurm_defaults : Assoc :=
  [("account", "kicp"), ("partition", "kicp-ht"), ("mem", "10000")]

/-- The process-wide environment as initialized at import time. -/
def env0 : GlobalEnv :=
  { clustersTab := [("local", CLUSTERS_local), ("lsf", CLUSTERS_lsf),
                    ("slurm", CLUSTERS_slurm), ("condor", CLUSTERS_condor)]
    queuesTab := [("local", QUEUES_local), ("lsf", QUEUES_lsf),
                  ("slurm", QUEUES_slurm), ("condor", QUEUES_condor)]
    runlimitsTab := RUNLIMITS
    mpiTab := MPIOPTS
    lsfClassDefaults := LSF_defaults
    slurmClassDefaults := Slurm_defaults
    lsfMapping := LSF_mapping }

/-
Backend abstraction (`class Batch`).
-/

/-- `Batch.__init__`: `self.default_opts = copy.deepcopy(self._defaults);
self.default_opts.update(**kwargs)` (after `kwargs.pop('max_jobs', None)`,
which routes the ceiling to `self.max_jobs` instead of the option set;
the ceiling is passed through a separate channel below). -/
def Batch.default_opts (classDefaults kwargs : Assoc) : Assoc :=
  odictUpdate classDefaults kwargs

/-- `Batch.njobs`: `len(jobs.strip().split(chr(10)))-1 if jobs else 0`. -/
def njobs (out : String) : Nat :=
  if out = "" then 0 else (pySplitOn (pyStrip out) '\n').length - 1

/-- `Batch.remap_options`: for each generic key of the mapping table, pop
it from the option set and, when it was present, store its value under the
backend-specific key. -/
def remapOptions (mapping : Assoc) (opts : Assoc) : Assoc :=
  mapping.foldl
    (fun acc p =>
      let r := popKey acc p.1
      match r.1 with
      | some v => setVal r.2 p.2 v
      | none => r.2)
    opts

/-- One iteration bound of `Batch.throttle`'s `while True` loop: polls
`polls i` at successive indices `i`, returning `some (number of polls
made)` on the first poll strictly below the ceiling `c`, and `none` when
`fuel` iterations were exhausted without such a poll. -/
def throttleGo (c : Nat) (polls : Nat → Nat) : Nat → Nat → Option Nat
  | 0, _ => none
  | Nat.succ fuel, i =>
    if polls i < c then some (i + 1) else throttleGo c polls fuel (i + 1)

/-- `Batch.throttle(max_jobs, sleep)`: the argument defaults to the
instance ceiling; with no ceiling in effect it returns immediately (0
polls), otherwise it loops polling `njobs()`.  `polls i` is the value the
`i`-th `njobs()` call returns; the result counts the polls made within
`fuel` iterations, `none` meaning the loop was still running. -/
def throttle (arg inst : Option Nat) (polls : Nat → Nat) (fuel : Nat) : Option Nat :=
  match (match arg with | none => inst | some a => some a) with
  | none => some 0
  | some c => throttleGo c polls fuel 0

/-- Serialization loop shared by the cluster backends:
`''.join('-%s %s ' % (k,v) for k,v in options.items())` with the given
dash prefix (`"-"` for LSF/bsub, `"--"` for Slurm/sbatch). -/
def serializeOpts (dash : String) (o : Assoc) : String :=
  String.join (o.map (fun p => dash ++ p.1 ++ " " ++ p.2 ++ " "))

/-- Python truthiness test for an optional string argument
(`if jobname:`): present and non-empty. -/
def truthyOpt : Option String → Bool
  | none => false
  | some s => s != ""

/-- `Batch.batch`'s option staging: merge `jobname`/`logfile` into the
per-call option set when truthy (each via `opts.update(...)`). -/
def batchOpts (jobname logfile : Option String) (opts : Assoc) : Assoc :=
  let o1 :=
    match jobname with
    | some j => if j = "" then opts else odictUpdate opts [("jobname", j)]
    | none => opts
  match logfile with
  | some l => if l = "" then o1 else odictUpdate o1 [("logfile", l)]
  | none => o1

/-
Local backend (`class Local`).
-/

/-- `Local.njobs`: returns 0 unconditionally. -/
def Local.njobs : Nat := 0

/-- `Local.parse_options`: only an optional log file is honoured, rendered
as a pipe-to-tee clause; everything else is ignored. -/
def Local.parse_options (opts : Assoc) : String :=
  match lookupA opts "logfile" with
  | some l => if l = "" then "" else " 2>&1 | tee " ++ l
  | none => ""

/-- `Local` inherits the empty `Batch._mapping`. -/
def Batch.mapping : Assoc := []

/-- `Local`'s `Batch.batch`: stage `jobname`/`logfile`, remap (a no-op for
the empty mapping), and substitute into `Local`'s submission template
`"%(command)s %(opts)s"`. -/
def Local.batch (command : String) (jobname logfile : Option String) (opts : Assoc) : String :=
  command ++ " " ++ Local.parse_options (remapOptions Batch.mapping (batchOpts jobname logfile opts))

/-- `Local.submit`: build the command line, throttle with the instance
ceiling (`self.throttle()` passes no argument), and return the command
line together with the throttling outcome. -/
def Local.submit (inst : Option Nat) (polls : Nat → Nat) (fuel : Nat)
    (command : String) (jobname logfile : Option String) (opts : Assoc) :
    String × Option Nat :=
  (Local.batch command jobname logfile opts, throttle none inst polls fuel)

/-
LSF backend (`class LSF`).
-/

/-- `LSF.runlimit` reading the table from the environment:
`try: return RUNLIMITS[queue] except KeyError: return RUNLIMITS[None]`
(the fallback is the table's `None`-keyed entry, "4:00"). -/
def runlimitEnv (env : GlobalEnv) (queue : Option String) : String :=
  match lookupTab env.runlimitsTab queue with
  | some w => w
  | none =>
    match lookupTab env.runlimitsTab none with
    | some w => w
    | none => ""

/-- `LSF.mpiopts` reading the table from the environment:
`try: return MPIOPTS[queue] except KeyError: return MPIOPTS[None]`
(the fallback is the table's `None`-keyed entry). -/
def mpioptsEnv (env : GlobalEnv) (queue : Option String) : String :=
  match lookupTab env.mpiTab queue with
  | some s => s
  | none =>
    match lookupTab env.mpiTab none with
    | some s => s
    | none => ""

/-- `LSF.runlimit` at the process-wide environment. -/
def LSF.runlimit (queue : Option String) : String := runlimitEnv env0 queue

/-- `LSF.mpiopts` at the process-wide environment. -/
def LSF.mpiopts (queue : Option String) : String := mpioptsEnv env0 queue

/-- Body of `LSF.parse_options` up to serialization, reading the tables
from the environment: `options = odict(self.default_opts);
options.update(opts)`; if `n` is a key, `options['R'] += mpiopts(q)` (a
`KeyError`, embedded as `none`, if `R` is absent); finally
`options.setdefault('W', runlimit(q))`. -/
def lsfOptionsEnv (env : GlobalEnv) (default_opts opts : Assoc) : Option Assoc :=
  let options := odictUpdate default_opts opts
  let afterR : Option Assoc :=
    if "n" ∈ keysOf options then
      match lookupA options "R" with
      | some r => some (setVal options "R" (r ++ mpioptsEnv env (lookupA options "q")))
      | none => none
    else some options
  match afterR with
  | some o2 => some (setdefault o2 "W" (runlimitEnv env (lookupA o2 "q")))
  | none => none

/-- `LSF.parse_options` threaded through the environment: returns the
serialized option string (or `none` for the `KeyError` case) together with
the environment and the instance option set it leaves behind. -/
def lsfParseRun (env : GlobalEnv) (default_opts opts : Assoc) :
    Option String × GlobalEnv × Assoc :=
  ((lsfOptionsEnv env default_opts opts).map (serializeOpts "-"), env, default_opts)

/-- Option set produced by `LSF.parse_options` before serialization. -/
def LSF.optionsFinal (default_opts opts : Assoc) : Option Assoc :=
  lsfOptionsEnv env0 default_opts opts

/-- `LSF.parse_options` (pure result at the process-wide environment). -/
def LSF.parse_options (default_opts opts : Assoc) : Option String :=
  (LSF.optionsFinal default_opts opts).map (serializeOpts "-")

/-- `LSF.__init__` threaded through the environment: reads the class
defaults (`copy.deepcopy(self._defaults)` then `.update(**kwargs)`) and
returns the fresh instance option set. -/
def lsfInitRun (env : GlobalEnv) (kwargs : Assoc) : Assoc × GlobalEnv :=
  (odictUpdate env.lsfClassDefaults kwargs, env)

/-- `Batch.remap_options` threaded through the environment (the mapping
table is read from the class attribute). -/
def remapRun (env : GlobalEnv) (opts : Assoc) : Assoc × GlobalEnv :=
  (remapOptions env.lsfMapping opts, env)

/-- `Slurm.parse_options`: merge instance defaults with per-call options
and serialize with the `--` prefix. -/
def Slurm.parse_options (default_opts opts : Assoc) : String :=
  serializeOpts "--" (odictUpdate default_opts opts)

/-
Factory (`def factory(queue, **kwargs)`).
-/

/-- The four backend families the factory can select. -/
inductive BackendT where
  | loc
  | lsf
  | slurm
  | condor
deriving DecidableEq

/-- Class defaults of each backend family (`Local` and `Condor` inherit
the empty `Batch._defaults`). -/
def backendDefaults : BackendT → Assoc
  | BackendT.loc => []
  | BackendT.lsf => LSF_defaults
  | BackendT.slurm => Slurm_defaults
  | BackendT.condor => []

/-- The queue auto-set step of `factory`: when the lowered name appears in
the flattened union of all queue lists, `kwargs.setdefault('q', name)`. -/
def factoryKwargs (name : String) (kwargs : Assoc) : Assoc :=
  if name ∈ allQueueNames then setdefault kwargs "q" name else kwargs

def localNames : List String := CLUSTERS_local ++ QUEUES_local

def lsfNames : List String := CLUSTERS_lsf ++ QUEUES_lsf

def slurmNames : List String := CLUSTERS_slurm ++ QUEUES_slurm

def condorNames : List String := CLUSTERS_condor ++ QUEUES_condor

/-- `factory(queue, **kwargs)`: `None` means "local"; the name is
lowercased, possibly auto-sets the `q` option, and selects the backend
family in the order local, lsf, slurm, condor.  The condor branch
constructs the stub backend and then unconditionally raises, so it is
embedded as the error it surfaces; an unmatched name raises `TypeError`.
The `ok` payload is the selected family with the construction kwargs. -/
def factory (queue : Option String) (kwargs : Assoc) :
    Except String (BackendT × Assoc) :=
  let queueStr := match queue with | none => "local" | some q => q
  let name := pyLower queueStr
  let kwargs2 := factoryKwargs name kwargs
  if name ∈ localNames then Except.ok (BackendT.loc, kwargs2)
  else if name ∈ lsfNames then Except.ok (BackendT.lsf, kwargs2)
  else if name ∈ slurmNames then Except.ok (BackendT.slurm, kwargs2)
  else if name ∈ condorNames then Except.error "Condor cluster not implemented"
  else Except.error ("Unexpected queue name: " ++ name)

/-- `factory` followed by backend construction: the returned instance's
default option set is the class defaults updated with the (possibly
`q`-augmented) construction kwargs. -/
def factoryInstance (queue : Option String) (kwargs : Assoc) :
    Except String (BackendT × Assoc) :=
  match factory queue kwargs with
  | Except.ok (b, kw) => Except.ok (b, Batch.default_opts (backendDefaults b) kw)
  | Except.error e => Except.error e

/-- The spec's description of the generic job count, for comparison with
the code's `njobs`.  Spec wording: "counts non-empty lines in
`listQueue()` output minus one (the assumption is a one-line header);
returns 0 if output is empty." -/
def countJobsSpecDescription (out : String) : Nat :=
  if out = "" then 0
  else ((pySplitOn out '\n').filter (fun l => l != "")).length - 1

/-
Basic lemmas about the ordered-dict embedding.
-/

theorem keysOf_nil : keysOf [] = [] := rfl

theorem keysOf_cons (p : String × String) (t : Assoc) :
    keysOf (p :: t) = p.1 :: keysOf t := rfl

theorem lookupA_append (m l : Assoc) (k : String) :
    lookupA (m ++ l) k =
      match lookupA m k with
      | some v => some v
      | none => lookupA l k := by
  induction m with
  | nil => rfl
  | cons p t ih =>
      cases p with
      | mk k' v =>
        by_cases h : k' = k
        · simp [lookupA, h]
        · simpa [lookupA, h] using ih

theorem lookupA_setVal_self (m : Assoc) (k v : String) :
    lookupA (setVal m k v) k = some v := by
  induction m with
  | nil => simp [setVal, lookupA]
  | cons p t ih =>
      cases p with
      | mk k' v' =>
        by_cases h : k' = k
        · simp [setVal, h, lookupA]
        · simp [setVal, h, lookupA, ih]

theorem lookupA_setVal_ne (m : Assoc) (k v : String) (k' : String) (h : k' ≠ k) :
    lookupA (setVal m k v) k' = lookupA m k' := by
  have hkk : ¬ k = k' := fun hk => h hk.symm
  induction m with
  | nil => simp [setVal, lookupA, hkk]
  | cons p t ih =>
      cases p with
      | mk a b =>
        by_cases ha : a = k
        · subst ha
          simp [setVal, lookupA, hkk]
        · simp [setVal, ha, lookupA, ih]

theorem lookupA_eq_none_iff (m : Assoc) (k : String) :
    lookupA m k = none ↔ ¬ k ∈ keysOf m := by
  induction m with
  | nil => simp [lookupA, keysOf]
  | cons p t ih =>
      cases p with
      | mk a b =>
        by_cases h : a = k
        · simp [lookupA, h, keysOf_cons]
        · have hka : ¬ k = a := fun hk => h hk.symm
          simp [lookupA, h, keysOf_cons, ih, hka]

theorem keysOf_setVal (m : Assoc) (k v : String) :
    keysOf (setVal m k v) =
      if k ∈ keysOf m then keysOf m else keysOf m ++ [k] := by
  induction m with
  | nil => simp [setVal, keysOf]
  | cons p t ih =>
      cases p with
      | mk a b =>
        by_cases h : a = k
        · subst h
          simp [setVal, keysOf_cons]
        · have hka : ¬ k = a := fun hk => h hk.symm
          by_cases hm : k ∈ keysOf t
          · simp [setVal, h, keysOf_cons, hm, ih, hka]
          · simp [setVal, h, keysOf_cons, hm, ih, hka]

theorem odictUpdate_nil (m : Assoc) : odictUpdate m [] = m := rfl

theorem odictUpdate_cons (m : Assoc) (p : String × String) (t : Assoc) :
    odictUpdate m (p :: t) = odictUpdate (setVal m p.1 p.2) t := rfl

theorem nodupKeys_cons (p : String × String) (t : Assoc) (h : NodupKeys (p :: t)) :
    ¬ p.1 ∈ keysOf t ∧ NodupKeys t := by
  have h' : (p.1 :: keysOf t).Nodup := h
  exact ⟨(List.nodup_cons.mp h').1, (List.nodup_cons.mp h').2⟩

/-- Python `dict.update` semantics: the updated mapping answers reads from
the update argument first, then from the original mapping. -/
theorem lookupA_odictUpdate (u : Assoc) (hu : NodupKeys u) (m : Assoc) (k : String) :
    lookupA (odictUpdate m u) k =
      match lookupA u k with
      | some v => some v
      | none => lookupA m k := by
  induction u generalizing m with
  | nil => rfl
  | cons p t ih =>
      obtain ⟨hp, ht⟩ := nodupKeys_cons p t hu
      cases p with
      | mk a b =>
        rw [odictUpdate_cons]
        by_cases h : a = k
        · subst h
          have hta : lookupA t a = none := (lookupA_eq_none_iff t a).mpr hp
          rw [ih ht]
          simp [hta, lookupA, lookupA_setVal_self]
        · rw [ih ht]
          have : lookupA (setVal m a b) k = lookupA m k :=
            lookupA_setVal_ne m a b k (fun hk => h hk.symm)
          cases htk : lookupA t k with
          | none => simp [lookupA, h, htk, this]
          | some w => simp [lookupA, h, htk]

/-- Python `dict.update` key order: keys of the original mapping first (in
their original order), then the genuinely new keys of the update argument
in arrival order. -/
theorem keysOf_odictUpdate (u : Assoc) (hu : NodupKeys u) (m : Assoc) :
    keysOf (odictUpdate m u) = keysOf m ++ newKeys m u := by
  induction u generalizing m with
  | nil => simp [odictUpdate_nil, newKeys, keysOf]
  | cons p t ih =>
      obtain ⟨hp, ht⟩ := nodupKeys_cons p t hu
      cases p with
      | mk a b =>
        rw [odictUpdate_cons, ih ht]
        by_cases h : a ∈ keysOf m
        · have hkeys : keysOf (setVal m a b) = keysOf m := by
            rw [keysOf_setVal]; simp [h]
          rw [hkeys]
          have hnew : newKeys m ((a, b) :: t) = newKeys m t := by
            unfold newKeys
            rw [keysOf_cons, List.filter_cons]
            simp [h]
          have hfilter : newKeys (setVal m a b) t = newKeys m t := by
            unfold newKeys
            rw [hkeys]
          rw [hnew, hfilter]
        · have hkeys : keysOf (setVal m a b) = keysOf m ++ [a] := by
            rw [keysOf_setVal]; simp [h]
          rw [hkeys]
          have hfilter : newKeys (setVal m a b) t = newKeys m t := by
            unfold newKeys
            rw [hkeys]
            apply List.filter_congr
            intro x hx
            have hxa : x ≠ a := fun hxa => hp (hxa ▸ hx)
            simp [List.mem_append, hxa]
          rw [hfilter]
          have hnew : newKeys m ((a, b) :: t) = a :: newKeys m t := by
            unfold newKeys
            rw [keysOf_cons, List.filter_cons]
            simp [h]
          rw [hnew, List.append_assoc]
          rfl

theorem lookupA_setdefault_self (m : Assoc) (k v : String) :
    lookupA (setdefault m k v) k =
      match lookupA m k with
      | some w => some w
      | none => some v := by
  unfold setdefault
  cases h : lookupA m k with
  | some w => simp [h]
  | none => rw [lookupA_append]; simp [h, lookupA]

theorem lookupA_setdefault_ne (m : Assoc) (k v : String) (k' : String) (h : k' ≠ k) :
    lookupA (setdefault m k v) k' = lookupA m k' := by
  unfold setdefault
  cases hm : lookupA m k with
  | some w => rfl
  | none =>
      have hkk : ¬ k = k' := fun hk => h hk.symm
      rw [lookupA_append]
      cases hm' : lookupA m k' with
      | some w => simp
      | none => simp [lookupA, hkk]

/-
Case analysis of the `LSF.parse_options` body.
-/

theorem lsfOptionsEnv_withN (env : GlobalEnv) (d o : Assoc) (r : String)
    (hn : "n" ∈ keysOf (odictUpdate d o))
    (hr : lookupA (odictUpdate d o) "R" = some r) :
    lsfOptionsEnv env d o =
      some (setdefault
        (setVal (odictUpdate d o) "R" (r ++ mpioptsEnv env (lookupA (odictUpdate d o) "q")))
        "W" (runlimitEnv env (lookupA (odictUpdate d o) "q"))) := by
  have hq : lookupA
      (setVal (odictUpdate d o) "R" (r ++ mpioptsEnv env (lookupA (odictUpdate d o) "q")))
      "q" = lookupA (odictUpdate d o) "q" :=
    lookupA_setVal_ne _ _ _ _ (by decide)
  simp only [lsfOptionsEnv, hn, if_true, hr, hq]

theorem lsfOptionsEnv_withN_noR (env : GlobalEnv) (d o : Assoc)
    (hn : "n" ∈ keysOf (odictUpdate d o))
    (hr : lookupA (odictUpdate d o) "R" = none) :
    lsfOptionsEnv env d o = none := by
  simp only [lsfOptionsEnv, hn, if_true, hr]

theorem lsfOptionsEnv_withoutN (env : GlobalEnv) (d o : Assoc)
    (hn : ¬ "n" ∈ keysOf (odictUpdate d o)) :
    lsfOptionsEnv env d o =
      some (setdefault (odictUpdate d o) "W"
        (runlimitEnv env (lookupA (odictUpdate d o) "q"))) := by
  simp only [lsfOptionsEnv, hn, if_false]

/-
Lookups in the queue-keyed tables for unrecognized queue names.
-/

theorem lookupTab_MPIOPTS_unrecognized (q : String)
    (hq : ¬ q ∈ ["local", "short", "medium", "kipac-ibq", "bulletmpi"]) :
    lookupTab MPIOPTS (some q) = none := by
  simp only [List.mem_cons, not_or] at hq
  obtain ⟨h1, h2, h3, h4, h5, _⟩ := hq
  simp [MPIOPTS, lookupTab, Ne.symm h1, Ne.symm h2, Ne.symm h3, Ne.symm h4, Ne.symm h5]

theorem lookupTab_RUNLIMITS_unrecognized (q : String)
    (hq : ¬ q ∈ ["express", "short", "medium", "long", "xlong", "xxl",
                 "kipac-ibq", "bulletmpi"]) :
    lookupTab RUNLIMITS (some q) = none := by
  simp only [List.mem_cons, not_or] at hq
  obtain ⟨h1, h2, h3, h4, h5, h6, h7, h8, _⟩ := hq
  simp [RUNLIMITS, lookupTab, Ne.symm h1, Ne.symm h2, Ne.symm h3, Ne.symm h4,
        Ne.symm h5, Ne.symm h6, Ne.symm h7, Ne.symm h8]

/-
Lemmas about the throttle loop.
-/

theorem throttleGo_of_high (c : Nat) (polls : Nat → Nat) (h : ∀ i, c ≤ polls i) :
    ∀ fuel i, throttleGo c polls fuel i = none := by
  intro fuel
  induction fuel with
  | zero => intro i; rfl
  | succ f ih =>
      intro i
      unfold throttleGo
      rw [if_neg (Nat.not_lt.mpr (h i))]
      exact ih (i + 1)

theorem throttleGo_some_spec (c : Nat) (polls : Nat → Nat) :
    ∀ fuel i n, throttleGo c polls fuel i = some n →
      i < n ∧ polls (n - 1) < c ∧ ∀ j, i ≤ j → j < n - 1 → c ≤ polls j := by
  intro fuel
  induction fuel with
  | zero => intro i n h; exact absurd h (by simp [throttleGo])
  | succ f ih =>
      intro i n h
      unfold throttleGo at h
      by_cases hp : polls i < c
      · rw [if_pos hp] at h
        have hn : i + 1 = n := Option.some.inj h
        subst hn
        refine ⟨Nat.lt_succ_self i, by simpa using hp, ?_⟩
        intro j hij hj
        omega
      · rw [if_neg hp] at h
        obtain ⟨h1, h2, h3⟩ := ih (i + 1) n h
        refine ⟨by omega, h2, ?_⟩
        intro j hij hj
        rcases Nat.eq_or_lt_of_le hij with hji | hlt
        · exact hji ▸ Nat.not_lt.mp hp
        · exact h3 j hlt hj

/-
Lemma about the batch-option staging of a truthy log file.
-/

theorem lookupA_batchOpts_logfile (jobname : Option String) (l : String)
    (hl : ¬ l = "") (opts : Assoc) :
    lookupA (batchOpts jobname (some l) opts) "logfile" = some l := by
  simp only [batchOpts, if_neg hl]
  exact lookupA_setVal_self _ "logfile" l

/-
Claim theorems.
-/

/-- C1: for the backends that merge option sets (LSF and Slurm both merge
through `Batch.default_opts` and `odictUpdate`), every option key follows
three-layer precedence — a per-call value overrides an
instance-construction default, which overrides the class default for the
same key — and the merged key order is the class-default keys first, in
table order, then the newly introduced keys in arrival order; Slurm
serializes exactly this merge, and LSF serializes it unchanged for every
key other than the specially treated `R` and `W`. -/
theorem C1_three_layer_merge (classDefaults ctorKwargs callOpts : Assoc)
    (hctor : NodupKeys ctorKwargs) (hcall : NodupKeys callOpts) :
    (∀ k, lookupA (odictUpdate (Batch.default_opts classDefaults ctorKwargs) callOpts) k =
        match lookupA callOpts k with
        | some v => some v
        | none =>
          match lookupA ctorKwargs k with
          | some v => some v
          | none => lookupA classDefaults k)
    ∧ keysOf (odictUpdate (Batch.default_opts classDefaults ctorKwargs) callOpts) =
        keysOf classDefaults ++ newKeys classDefaults ctorKwargs
          ++ newKeys (Batch.default_opts classDefaults ctorKwargs) callOpts
    ∧ Slurm.parse_options (Batch.default_opts classDefaults ctorKwargs) callOpts =
        serializeOpts "--" (odictUpdate (Batch.default_opts classDefaults ctorKwargs) callOpts)
    ∧ (∀ k, ¬ k = "R" → ¬ k = "W" →
        ∀ m, LSF.optionsFinal (Batch.default_opts classDefaults ctorKwargs) callOpts = some m →
          lookupA m k =
            lookupA (odictUpdate (Batch.default_opts classDefaults ctorKwargs) callOpts) k) := by
  refine ⟨?_, ?_, rfl, ?_⟩
  · intro k
    unfold Batch.default_opts
    rw [lookupA_odictUpdate callOpts hcall, lookupA_odictUpdate ctorKwargs hctor]
  · unfold Batch.default_opts
    rw [keysOf_odictUpdate callOpts hcall, keysOf_odictUpdate ctorKwargs hctor]
  · intro k hR hW m hm
    have hWk : k ≠ "W" := hW
    have hRk : k ≠ "R" := hR
    set d := Batch.default_opts classDefaults ctorKwargs with hd
    by_cases hn : "n" ∈ keysOf (odictUpdate d callOpts)
    · cases hr : lookupA (odictUpdate d callOpts) "R" with
      | none =>
          rw [LSF.optionsFinal, lsfOptionsEnv_withN_noR env0 d callOpts hn hr] at hm
          exact absurd hm (by simp)
      | some r =>
          rw [LSF.optionsFinal, lsfOptionsEnv_withN env0 d callOpts r hn hr] at hm
          have hm' := Option.some.inj hm
          rw [← hm', lookupA_setdefault_ne _ _ _ _ hWk, lookupA_setVal_ne _ _ _ _ hRk]
    · rw [LSF.optionsFinal, lsfOptionsEnv_withoutN env0 d callOpts hn] at hm
      have hm' := Option.some.inj hm
      rw [← hm', lookupA_setdefault_ne _ _ _ _ hWk]

/-- C1 witness: concrete three-layer merge on the LSF class defaults with
an instance default for `q` and `R` and a per-call override for `R`. -/
theorem C1_witness :
    lookupA (odictUpdate (Batch.default_opts LSF_defaults
        [("q", "long"), ("R", "instR")]) [("R", "callR")]) "R" = some "callR"
    ∧ keysOf (odictUpdate (Batch.default_opts LSF_defaults
        [("q", "long"), ("R", "instR")]) [("R", "callR")]) = ["R", "C", "q"] := by
  have h := C1_three_layer_merge LSF_defaults [("q", "long"), ("R", "instR")]
    [("R", "callR")] (by decide) (by decide)
  constructor
  · rw [h.1 "R"]; rfl
  · rw [h.2.1]; rfl

/-- C2: `throttle` returns immediately (zero polls) when neither the
argument nor the instance ceiling is set; with a ceiling `c` in effect it
returns only after a poll strictly below `c` (every earlier poll was at or
above `c`), and if every poll is at or above `c` it never returns for any
iteration bound — in particular a submit-time `throttle()` on a backend
with ceiling 2 whose queue listing keeps showing 3 non-header lines
(4 lines, so `njobs` = 3) never completes. -/
theorem C2_throttle_blocking (arg inst : Option Nat) (c : Nat) (polls : Nat → Nat) :
    (arg = none → inst = none → ∀ fuel, throttle arg inst polls fuel = some 0)
    ∧ ((match arg with | none => inst | some a => some a) = some c →
        (∀ fuel n, throttle arg inst polls fuel = some n →
          1 ≤ n ∧ polls (n - 1) < c ∧ ∀ j, j < n - 1 → c ≤ polls j)
        ∧ ((∀ i, c ≤ polls i) → ∀ fuel, throttle arg inst polls fuel = none))
    ∧ njobs "HEADER\njob1\njob2\njob3" = 3
    ∧ (∀ fuel,
        throttle none (some 2) (fun _ => njobs "HEADER\njob1\njob2\njob3") fuel = none) := by
  refine ⟨?_, ?_, by decide, ?_⟩
  · intro h1 h2 fuel
    subst h1; subst h2; rfl
  · intro hc
    constructor
    · intro fuel n h
      unfold throttle at h
      rw [hc] at h
      obtain ⟨h1, h2, h3⟩ := throttleGo_some_spec c polls fuel 0 n h
      exact ⟨h1, h2, fun j hj => h3 j (Nat.zero_le j) hj⟩
    · intro hall fuel
      unfold throttle
      rw [hc]
      exact throttleGo_of_high c polls hall fuel 0
  · intro fuel
    show throttleGo 2 _ fuel 0 = none
    exact throttleGo_of_high 2 _ (fun _ => by decide) fuel 0

/-- C2 witness: with no ceiling anywhere the throttle makes zero polls;
with instance ceiling 2 and a listing stuck at 3 non-header lines it is
still running after 6 iterations. -/
theorem C2_witness :
    throttle none none (fun _ => 5) 7 = some 0
    ∧ throttle none (some 2) (fun _ => njobs "HEADER\njob1\njob2\njob3") 6 = none := by
  constructor
  · exact (C2_throttle_blocking none none 0 (fun _ => 5)).1 rfl rfl 7
  · exact (C2_throttle_blocking none (some 2) 2
      (fun _ => njobs "HEADER\njob1\njob2\njob3")).2.2.2 6

/-- C3 counterexample: on a queue listing with a blank interior line
("HEADER", blank, "job1") the code counts all three lines of the stripped
output and returns 2, while the spec's description "non-empty lines minus
one" yields 1 — so the two disagree on outputs containing blank interior
lines. -/
theorem C3_counterexample :
    njobs "HEADER\n\njob1" = 2 ∧ countJobsSpecDescription "HEADER\n\njob1" = 1 := by
  decide

/-- C3 (amended): the generic `njobs` returns 0 when the queue-listing
output is empty and otherwise the number of lines of the
whitespace-stripped output minus one, where blank interior lines count as
lines (so on such outputs it exceeds the spec's "non-empty lines minus
one"); `Local.njobs` returns 0 unconditionally. -/
theorem C3_njobs_amended :
    njobs "" = 0
    ∧ njobs "HEADER" = 0
    ∧ njobs "HEADER\njob1" = 1
    ∧ njobs "HEADER\njob1\njob2\njob3" = 3
    ∧ njobs " HEADER\njob1\n" = 1
    ∧ njobs "HEADER\n\njob1" = 2
    ∧ Local.njobs = 0 := by
  decide

/-- C4: when the merged LSF options contain `n`, the final `R` value is
the base merged `R` (the class default scratch/rhel60 selector when not
overridden) concatenated with the MPI placement string selected by the
merged `q`: the default placement for an absent or unrecognized queue and
the bulletmpi placement for q = "bulletmpi"; when `n` is absent, `R` is
left unchanged. -/
theorem C4_lsf_R_mpi (d o : Assoc) (r : String) :
    (lookupA (odictUpdate d o) "R" = some r →
      "n" ∈ keysOf (odictUpdate d o) →
      ∃ m, LSF.optionsFinal d o = some m ∧
        lookupA m "R" = some (r ++ LSF.mpiopts (lookupA (odictUpdate d o) "q")))
    ∧ (¬ "n" ∈ keysOf (odictUpdate d o) →
      ∃ m, LSF.optionsFinal d o = some m ∧
        lookupA m "R" = lookupA (odictUpdate d o) "R")
    ∧ LSF.mpiopts none = " -R \"span[ptile=4]\""
    ∧ LSF.mpiopts (some "bulletmpi") = " -R \"span[ptile=16]\""
    ∧ (∀ q : String, ¬ q ∈ ["local", "short", "medium", "kipac-ibq", "bulletmpi"] →
        LSF.mpiopts (some q) = " -R \"span[ptile=4]\"")
    ∧ lookupA LSF_defaults "R" = some "\"scratch > 1 && rhel60\"" := by
  refine ⟨?_, ?_, rfl, rfl, ?_, rfl⟩
  · intro hr hn
    refine ⟨_, lsfOptionsEnv_withN env0 d o r hn hr, ?_⟩
    rw [lookupA_setdefault_ne _ _ _ _ (by decide), lookupA_setVal_self]
    rfl
  · intro hn
    exact ⟨_, lsfOptionsEnv_withoutN env0 d o hn,
      lookupA_setdefault_ne _ _ _ _ (by decide)⟩
  · intro q hq
    show mpioptsEnv env0 (some q) = " -R \"span[ptile=4]\""
    unfold mpioptsEnv
    rw [show env0.mpiTab = MPIOPTS from rfl, lookupTab_MPIOPTS_unrecognized q hq]
    rfl

/-- C4 witness: with a per-call `n` on the class defaults (queue unset),
the serialized `R` is the class default selector followed by the default
placement string. -/
theorem C4_witness :
    lookupA (odictUpdate LSF_defaults [("n", "4")]) "R" = some "\"scratch > 1 && rhel60\""
    ∧ ("n" ∈ keysOf (odictUpdate LSF_defaults [("n", "4")]))
    ∧ ∃ m, LSF.optionsFinal LSF_defaults [("n", "4")] = some m ∧
        lookupA m "R" = some "\"scratch > 1 && rhel60\" -R \"span[ptile=4]\"" := by
  refine ⟨by decide, by decide, ?_⟩
  obtain ⟨m, hm, hr⟩ := (C4_lsf_R_mpi LSF_defaults [("n", "4")]
    "\"scratch > 1 && rhel60\"").1 (by decide) (by decide)
  refine ⟨m, hm, ?_⟩
  rw [hr]
  rfl

/-- C5: when the merged LSF options contain no `W`, the final options gain
a `W` equal to the runlimit selected by the merged `q` — "0:04" for
express, the sentinel "4:00" for an absent or unrecognized queue — and a
`W` present in the merge (hence supplied at some layer) is never
replaced. -/
theorem C5_lsf_W (d o : Assoc) :
    (∀ m, LSF.optionsFinal d o = some m →
      (lookupA (odictUpdate d o) "W" = none →
        lookupA m "W" = some (LSF.runlimit (lookupA (odictUpdate d o) "q")))
      ∧ (∀ w, lookupA (odictUpdate d o) "W" = some w → lookupA m "W" = some w))
    ∧ LSF.runlimit (some "express") = "0:04"
    ∧ LSF.runlimit none = "4:00"
    ∧ (∀ q : String,
        ¬ q ∈ ["express", "short", "medium", "long", "xlong", "xxl",
               "kipac-ibq", "bulletmpi"] →
        LSF.runlimit (some q) = "4:00") := by
  refine ⟨?_, rfl, rfl, ?_⟩
  · intro m hm
    by_cases hn : "n" ∈ keysOf (odictUpdate d o)
    · cases hr : lookupA (odictUpdate d o) "R" with
      | none =>
          rw [LSF.optionsFinal, lsfOptionsEnv_withN_noR env0 d o hn hr] at hm
          exact absurd hm (by simp)
      | some r =>
          rw [LSF.optionsFinal, lsfOptionsEnv_withN env0 d o r hn hr] at hm
          have hm' := Option.some.inj hm
          have hWR : lookupA
              (setVal (odictUpdate d o) "R"
                (r ++ mpioptsEnv env0 (lookupA (odictUpdate d o) "q"))) "W" =
              lookupA (odictUpdate d o) "W" :=
            lookupA_setVal_ne _ _ _ _ (by decide)
          constructor
          · intro hW
            rw [← hm', lookupA_setdefault_self, hWR, hW]
            rfl
          · intro w hW
            rw [← hm', lookupA_setdefault_self, hWR, hW]
    · rw [LSF.optionsFinal, lsfOptionsEnv_withoutN env0 d o hn] at hm
      have hm' := Option.some.inj hm
      constructor
      · intro hW
        rw [← hm', lookupA_setdefault_self, hW]
        rfl
      · intro w hW
        rw [← hm', lookupA_setdefault_self, hW]
  · intro q hq
    show runlimitEnv env0 (some q) = "4:00"
    unfold runlimitEnv
    rw [show env0.runlimitsTab = RUNLIMITS from rfl, lookupTab_RUNLIMITS_unrecognized q hq]
    rfl

/-- C5 witness: constructing the merge with q = "express" and no `W`
anywhere yields a final `W` of "0:04". -/
theorem C5_witness :
    LSF.optionsFinal LSF_defaults [("q", "express")] =
      some [("R", "\"scratch > 1 && rhel60\""), ("C", "0"),
            ("q", "express"), ("W", "0:04")]
    ∧ lookupA [("R", "\"scratch > 1 && rhel60\""), ("C", "0"),
               ("q", "express"), ("W", "0:04")] "W" = some "0:04" := by
  have hm : LSF.optionsFinal LSF_defaults [("q", "express")] =
      some [("R", "\"scratch > 1 && rhel60\""), ("C", "0"),
            ("q", "express"), ("W", "0:04")] := by decide
  refine ⟨hm, ?_⟩
  have h := ((C5_lsf_W LSF_defaults [("q", "express")]).1 _ hm).1 (by decide)
  rw [h]
  rfl

/-- C6: on a Local backend constructed without a ceiling,
`submit('echo hi', jobname, logfile='out.log')` builds exactly
"echo hi  2>&1 | tee out.log" (two spaces: one from the
"%(command)s %(opts)s" template, one leading the tee clause) whatever the
job name and other options are, and its throttle step returns immediately
with zero polls. -/
theorem C6_local_submit (jobname : Option String) (opts : Assoc)
    (polls : Nat → Nat) (fuel : Nat) :
    Local.batch "echo hi" jobname (some "out.log") opts = "echo hi  2>&1 | tee out.log"
    ∧ Local.submit none polls fuel "echo hi" jobname (some "out.log") opts =
        ("echo hi  2>&1 | tee out.log", some 0) := by
  have hlf : lookupA (remapOptions Batch.mapping
      (batchOpts jobname (some "out.log") opts)) "logfile" = some "out.log" :=
    lookupA_batchOpts_logfile jobname "out.log" (by decide) opts
  have hbatch : Local.batch "echo hi" jobname (some "out.log") opts =
      "echo hi  2>&1 | tee out.log" := by
    unfold Local.batch Local.parse_options
    rw [hlf]
    rfl
  refine ⟨hbatch, ?_⟩
  unfold Local.submit
  rw [hbatch]
  rfl

/-- C7: `factory(None)` behaves identically to `factory('local')` on every
kwargs, the constructed instance is a Local backend with the same default
options, and `factory('kipac-ibq')` selects the LSF backend whose instance
defaults include q = "kipac-ibq", a queue name belonging to the flattened
union of queue lists. -/
theorem C7_factory_none_local (kwargs : Assoc) :
    factory none kwargs = factory (some "local") kwargs
    ∧ factoryInstance none kwargs = factoryInstance (some "local") kwargs
    ∧ factoryInstance none [] = Except.ok (BackendT.loc, [("q", "local")])
    ∧ "kipac-ibq" ∈ allQueueNames
    ∧ factoryInstance (some "kipac-ibq") [] =
        Except.ok (BackendT.lsf,
          [("R", "\"scratch > 1 && rhel60\""), ("C", "0"), ("q", "kipac-ibq")])
    ∧ lookupA [("R", "\"scratch > 1 && rhel60\""), ("C", "0"),
               ("q", "kipac-ibq")] "q" = some "kipac-ibq" := by
  exact ⟨rfl, rfl, rfl, by decide, rfl, rfl⟩

/-- C8: the factory raises exactly on two classes of input — a name that
reaches the condor branch (a condor alias or condor queue name not claimed
by the local, lsf or slurm families) fails with the "not implemented"
error and never yields a backend, and a name matching no table entry fails
with the unrecognized-name error; every name matched by an earlier family
returns a backend without raising. -/
theorem C8_factory_errors (name : String) (kwargs : Assoc) :
    ((pyLower name ∈ condorNames ∧ ¬ pyLower name ∈ localNames
        ∧ ¬ pyLower name ∈ lsfNames ∧ ¬ pyLower name ∈ slurmNames) →
      factory (some name) kwargs = Except.error "Condor cluster not implemented")
    ∧ ((¬ pyLower name ∈ localNames ∧ ¬ pyLower name ∈ lsfNames
        ∧ ¬ pyLower name ∈ slurmNames ∧ ¬ pyLower name ∈ condorNames) →
      factory (some name) kwargs = Except.error ("Unexpected queue name: " ++ pyLower name))
    ∧ ((pyLower name ∈ localNames ∨ pyLower name ∈ lsfNames ∨ pyLower name ∈ slurmNames) →
      ∃ b, factory (some name) kwargs = Except.ok b)
    ∧ ((∃ e, factory (some name) kwargs = Except.error e) ↔
        ((pyLower name ∈ condorNames ∧ ¬ pyLower name ∈ localNames
            ∧ ¬ pyLower name ∈ lsfNames ∧ ¬ pyLower name ∈ slurmNames)
         ∨ (¬ pyLower name ∈ localNames ∧ ¬ pyLower name ∈ lsfNames
            ∧ ¬ pyLower name ∈ slurmNames ∧ ¬ pyLower name ∈ condorNames))) := by
  have hcondor : (pyLower name ∈ condorNames ∧ ¬ pyLower name ∈ localNames
      ∧ ¬ pyLower name ∈ lsfNames ∧ ¬ pyLower name ∈ slurmNames) →
      factory (some name) kwargs = Except.error "Condor cluster not implemented" := by
    rintro ⟨h4, h1, h2, h3⟩
    simp [factory, h1, h2, h3, h4]
  have hunmatched : (¬ pyLower name ∈ localNames ∧ ¬ pyLower name ∈ lsfNames
      ∧ ¬ pyLower name ∈ slurmNames ∧ ¬ pyLower name ∈ condorNames) →
      factory (some name) kwargs =
        Except.error ("Unexpected queue name: " ++ pyLower name) := by
    rintro ⟨h1, h2, h3, h4⟩
    simp [factory, h1, h2, h3, h4]
  have hok : (pyLower name ∈ localNames ∨ pyLower name ∈ lsfNames
      ∨ pyLower name ∈ slurmNames) →
      ∃ b, factory (some name) kwargs = Except.ok b := by
    intro h
    by_cases h1 : pyLower name ∈ localNames
    · exact ⟨(BackendT.loc, factoryKwargs (pyLower name) kwargs), by simp [factory, h1]⟩
    · by_cases h2 : pyLower name ∈ lsfNames
      · exact ⟨(BackendT.lsf, factoryKwargs (pyLower name) kwargs), by simp [factory, h1, h2]⟩
      · by_cases h3 : pyLower name ∈ slurmNames
        · exact ⟨(BackendT.slurm, factoryKwargs (pyLower name) kwargs),
            by simp [factory, h1, h2, h3]⟩
        · rcases h with h | h | h
          · exact absurd h h1
          · exact absurd h h2
          · exact absurd h h3
  refine ⟨hcondor, hunmatched, hok, ?_, ?_⟩
  · rintro ⟨e, he⟩
    by_cases h1 : pyLower name ∈ localNames
    · rw [show factory (some name) kwargs =
        Except.ok (BackendT.loc, factoryKwargs (pyLower name) kwargs) from
          by simp [factory, h1]] at he
      exact absurd he (by simp)
    · by_cases h2 : pyLower name ∈ lsfNames
      · rw [show factory (some name) kwargs =
          Except.ok (BackendT.lsf, factoryKwargs (pyLower name) kwargs) from
            by simp [factory, h1, h2]] at he
        exact absurd he (by simp)
      · by_cases h3 : pyLower name ∈ slurmNames
        · rw [show factory (some name) kwargs =
            Except.ok (BackendT.slurm, factoryKwargs (pyLower name) kwargs) from
              by simp [factory, h1, h2, h3]] at he
          exact absurd he (by simp)
        · by_cases h4 : pyLower name ∈ condorNames
          · exact Or.inl ⟨h4, h1, h2, h3⟩
          · exact Or.inr ⟨h1, h2, h3, h4⟩
  · rintro (h | h)
    · exact ⟨_, hcondor h⟩
    · exact ⟨_, hunmatched h⟩

/-- C8 witness: "vanilla" (a condor queue name) raises "not implemented",
"xyzzy" raises the unrecognized-name error, and "slac" (an lsf alias)
yields a backend. -/
theorem C8_witness :
    factory (some "vanilla") [] = Except.error "Condor cluster not implemented"
    ∧ factory (some "xyzzy") [] =
        Except.error ("Unexpected queue name: " ++ pyLower "xyzzy")
    ∧ ∃ b, factory (some "slac") [] = Except.ok b := by
  refine ⟨(C8_factory_errors "vanilla" []).1 (by decide),
          (C8_factory_errors "xyzzy" []).2.1 (by decide),
          (C8_factory_errors "slac" []).2.2.1 (by decide)⟩

/-- C9: no reachable operation mutates the global tables or the class /
instance option mappings: threaded through the explicit environment,
construction, option remapping and LSF `parse_options` (including its
`+=` on `R`, which acts on the fresh per-call copy `odict(default_opts)`)
all return the environment and the instance defaults unchanged, a second
identical call produces the identical output, and the threaded run agrees
with the pure `LSF.parse_options`. -/
theorem C9_no_global_mutation (env : GlobalEnv) (kwargs d o opts2 : Assoc) :
    (lsfInitRun env kwargs).2 = env
    ∧ (lsfParseRun env d o).2.1 = env
    ∧ (lsfParseRun env d o).2.2 = d
    ∧ (remapRun env opts2).2 = env
    ∧ (lsfParseRun ((lsfParseRun env d o).2.1) ((lsfParseRun env d o).2.2) o).1 =
        (lsfParseRun env d o).1
    ∧ (lsfParseRun env0 d o).1 = LSF.parse_options d o := by
  exact ⟨rfl, rfl, rfl, rfl, rfl, rfl⟩

/-- C10: "local" appears in the condor entry of the QUEUES table (and in
no other queue list), so the queue-union check matches it and
`factory('local')` — hence `factory(None)` — returns a Local backend whose
default options include q = "local", which `Local.parse_options` ignores;
in general the auto-set-q step applies to every name in the flattened
queue union before any family is selected, and whenever the factory
returns a backend its construction kwargs are the auto-set kwargs. -/
theorem C10_autoset_q (name : String) (kwargs : Assoc) :
    factoryInstance (some "local") [] = Except.ok (BackendT.loc, [("q", "local")])
    ∧ factoryInstance none [] = Except.ok (BackendT.loc, [("q", "local")])
    ∧ "local" ∈ QUEUES_condor
    ∧ ¬ "local" ∈ QUEUES_local
    ∧ Local.parse_options [("q", "local")] = ""
    ∧ (name ∈ allQueueNames → lookupA kwargs "q" = none →
        factoryKwargs name kwargs = kwargs ++ [("q", name)])
    ∧ (∀ v, name ∈ allQueueNames → lookupA kwargs "q" = some v →
        factoryKwargs name kwargs = kwargs)
    ∧ (∀ b kw2, factory (some name) kwargs = Except.ok (b, kw2) →
        kw2 = factoryKwargs (pyLower name) kwargs) := by
  refine ⟨rfl, rfl, by decide, by decide, rfl, ?_, ?_, ?_⟩
  · intro h1 h2
    unfold factoryKwargs setdefault
    rw [if_pos h1, h2]
  · intro v h1 h2
    unfold factoryKwargs setdefault
    rw [if_pos h1, h2]
  · intro b kw2 h
    simp only [factory] at h
    split_ifs at h <;> simp_all

/-- C10 witness: a queue-union name introduces `q` at the end of the
kwargs when absent and leaves kwargs alone when `q` was given. -/
theorem C10_witness :
    factoryKwargs "express" [("mem", "8")] = [("mem", "8"), ("q", "express")]
    ∧ factoryKwargs "bulletmpi" [("q", "long")] = [("q", "long")]
    ∧ factoryKwargs "local" [] = [("q", "local")] := by
  refine ⟨(C10_autoset_q "express" [("mem", "8")]).2.2.2.2.2.1 (by decide) (by decide),
          (C10_autoset_q "bulletmpi" [("q", "long")]).2.2.2.2.2.2.1 "long"
            (by decide) (by decide),
          (C10_autoset_q "local" []).2.2.2.2.2.1 (by decide) (by decide)⟩

end UgaliBatch
